import Mathlib

/-!
Verification development for the `codetoprompt` structural compression engine.

The Python source under `codetoprompt/compressor/` is shallowly embedded here:

* A tree-sitter syntax tree is modelled by the rose tree `TSNode`.  A real
  tree-sitter node exposes `type`, its source span, and `children`; since the
  analysers read a node's source span only through
  `BaseAnalyser.extract_node_text(node, source_code)`
  (= `source_code[node.start_byte:node.end_byte]` decoded), each embedded node
  carries the text of its span directly in the `text` field, and
  `extract_node_text` returns it.
* Python `dict`-shaped records become Lean structures whose fields are the
  keys of the dict literals in the source.
* The external collaborators of the orchestrator (the tree-sitter library,
  the file system) are modelled by an explicit environment `Env`; everything
  the repository's own code does is embedded concretely.
* Python exceptions are modelled with `Except String`; an `IndexError` raised
  by `list[i]` carries the CPython message "list index out of range".
-/

/-- Model of a tree-sitter syntax node: node type, text of its source span,
and the list of children (named and anonymous alike, as in `node.children`). -/
inductive TSNode where
  | mk (ty : String) (text : String) (children : List TSNode)

/-- The node's `type` string. -/
def TSNode.ty : TSNode → String
  | .mk t _ _ => t

/-- The text of the node's source span (see the module comment: this models
`BaseAnalyser.extract_node_text`, which slices `source_code` by the node's
byte range). -/
def TSNode.text : TSNode → String
  | .mk _ s _ => s

/-- The node's children list. -/
def TSNode.children : TSNode → List TSNode
  | .mk _ _ c => c

mutual
/-- Structural equality of nodes, modelling tree-sitter's `node == node`
comparison used in `extract_preceding_comment`. -/
def TSNode.beq : TSNode → TSNode → Bool
  | .mk t1 s1 c1, .mk t2 s2 c2 => t1 == t2 && s1 == s2 && TSNode.beqList c1 c2
def TSNode.beqList : List TSNode → List TSNode → Bool
  | [], [] => true
  | a :: as, b :: bs => TSNode.beq a b && TSNode.beqList as bs
  | _, _ => false
end

instance : BEq TSNode := ⟨TSNode.beq⟩

/-- `BaseAnalyser.extract_node_text(node, source_code)`: the text of the
node's byte span (carried on the node in this embedding). -/
def extract_node_text (node : TSNode) : String := node.text

/-- Python `str.strip(chars)`: remove leading and trailing characters drawn
from the set `cs`. -/
def pyStripChars (s : String) (cs : List Char) : String :=
  ⟨((s.data.dropWhile (fun c => cs.contains c)).reverse.dropWhile
      (fun c => cs.contains c)).reverse⟩

/-- Is `p` a (character) prefix of `s`? -/
def listPrefixOf : List Char → List Char → Bool
  | [], _ => true
  | _, [] => false
  | p :: ps, c :: cs => p == c && listPrefixOf ps cs

/-- Python `s.startswith(p)` (character-based). -/
def pyStartsWith (s p : String) : Bool := listPrefixOf p.data s.data

/-- Python `s.endswith(p)` (character-based). -/
def pyEndsWith (s p : String) : Bool := listPrefixOf p.data.reverse s.data.reverse

/-- Python whitespace for `str.strip()`. -/
def pyIsSpace (c : Char) : Bool :=
  c == ' ' || c == '\t' || c == '\n' || c == '\r' || c == '\x0b' || c == '\x0c'

/-- Python `str.strip()`: trim whitespace from both ends. -/
def pyStrip (s : String) : String :=
  ⟨((s.data.dropWhile pyIsSpace).reverse.dropWhile pyIsSpace).reverse⟩

/-- Python `s[n:]` (character slice). -/
def pyDrop (s : String) (n : Nat) : String := ⟨s.data.drop n⟩

/-- Python `s[:-n]` for positive `n` (character slice). -/
def pyDropRight (s : String) (n : Nat) : String := ⟨(s.data.reverse.drop n).reverse⟩

/-- Python `s[:n]` (character slice). -/
def pyTake (s : String) (n : Nat) : String := ⟨s.data.take n⟩

/-- Python `s.split(sep)` for a one-character separator. -/
def splitCharList (sep : Char) : List Char → List (List Char)
  | [] => [[]]
  | c :: cs =>
    let rest := splitCharList sep cs
    if c == sep then [] :: rest
    else
      match rest with
      | [] => [[c]]
      | r :: rs => (c :: r) :: rs

/-- Python `s.split(sep)` for a one-character separator, on strings. -/
def pySplitChar (sep : Char) (s : String) : List String :=
  (splitCharList sep s.data).map (fun l => ⟨l⟩)

/-- Python `sep.join(xs)`. -/
def pyJoin (sep : String) : List String → String
  | [] => ""
  | [x] => x
  | x :: xs => x ++ sep ++ pyJoin sep xs

/-- Python `sub in s` substring membership. -/
def listContainsSub (sub : List Char) : List Char → Bool
  | [] => sub.isEmpty
  | c :: rest => listPrefixOf sub (c :: rest) || listContainsSub sub rest

/-- Python `sub in s` on strings. -/
def containsSub (s sub : String) : Bool := listContainsSub sub.data s.data

/-- Python `str.lower()` over ASCII. -/
def pyCharLower (c : Char) : Char :=
  if 'A' ≤ c && c ≤ 'Z' then Char.ofNat (c.toNat + 32) else c

/-- Python `str.lower()` over ASCII, on strings. -/
def pyToLower (s : String) : String := ⟨s.data.map pyCharLower⟩

/-- Python `pathlib.Path(p).suffix` for ordinary file names: the last
dot-suffix of the final path component, empty when the name has no dot or is
a leading-dot hidden file. -/
def pathSuffix (fp : String) : String :=
  let name := (pySplitChar '/' fp).getLastD ""
  match pySplitChar '.' name with
  | [] => ""
  | [_] => ""
  | first :: rest =>
    if first = "" && rest.length == 1 then ""
    else "." ++ rest.getLastD ""

/-- The extension→language table `BaseAnalyser.EXTENSION_TO_LANGUAGE`. -/
def EXTENSION_TO_LANGUAGE : List (String × String) :=
  [(".py", "python"),
   (".js", "javascript"),
   (".ts", "typescript"),
   (".jsx", "javascript"),
   (".tsx", "typescript"),
   (".java", "java"),
   (".cpp", "cpp"),
   (".cc", "cpp"),
   (".cxx", "cpp"),
   (".c", "c"),
   (".h", "c"),
   (".hpp", "cpp"),
   (".rs", "rust")]

/-- External collaborators of the compressor, modelled as an explicit
environment: tree-sitter parser availability and parsing, file reads, and
the analyse/format behaviour of the languages not embedded concretely
(JavaScript, Java, C++, Rust — the pipeline theorems below hold for every
behaviour of those stages). `Except.error m` models a raised exception whose
`str(e)` is `m`. -/
structure Env where
  parserAvailable : String → Bool
  readBytes : String → Except String String
  firstLine : String → Except String String
  parseTree : String → String → TSNode
  extractOther : String → TSNode → Except String (List (String × String))
  formatOther : String → List (String × String) → Except String String

/-- `BaseAnalyser.detect_language`: extension table lookup first, then a
shebang sniff of the first line (`python` / `node`), `none` otherwise.  The
`try/except: pass` around the read is modelled by mapping a raised exception
to the no-shebang outcome. -/
def detect_language (env : Env) (file_path : String) : Option String :=
  let ext := pyToLower (pathSuffix file_path)
  match EXTENSION_TO_LANGUAGE.lookup ext with
  | some lang => some lang
  | none =>
    match env.firstLine file_path with
    | .error _ => none
    | .ok raw =>
      let first_line := pyStrip raw
      if pyStartsWith first_line "#!" then
        if containsSub first_line "python" then some "python"
        else if containsSub first_line "node" then some "javascript"
        else none
      else none

/-- Per-instance state of a `BaseAnalyser`: the `self.parsers` cache (keyed
by language id; the cached value is the identity of the constructed parser
instance) together with a process-wide construction counter used as the next
parser identity.  (`self.languages` is populated in lockstep with
`self.parsers` and never read elsewhere, so it is not modelled.) -/
structure AnalyserState where
  parsers : List (String × Nat)
  constructions : Nat

/-- `BaseAnalyser.get_parser_for_language`: on a cache miss construct and
store a parser (when tree-sitter can provide one), on a hit return the cached
instance unchanged. -/
def get_parser_for_language (env : Env) (language : String) (st : AnalyserState) :
    Option Nat × AnalyserState :=
  match st.parsers.lookup language with
  | none =>
    if env.parserAvailable language then
      let pid := st.constructions
      (some pid, ⟨st.parsers ++ [(language, pid)], pid + 1⟩)
    else
      (none, st)
  | some pid => (some pid, st)

/-- Scan of the preceding siblings (nearest first) in
`BaseAnalyser.extract_preceding_comment`: return the cleaned text of the
first `line_comment`/`block_comment` sibling, keep scanning past `modifiers`
nodes, stop at anything else. -/
def scanPrevSiblings (clean : String → String) : List TSNode → Option String
  | [] => none
  | sib :: rest =>
    if sib.ty == "line_comment" || sib.ty == "block_comment" then
      some (clean (extract_node_text sib))
    else if sib.ty == "modifiers" then
      scanPrevSiblings clean rest
    else
      none

/-- `BaseAnalyser.clean_comment`: strip the comment markers, drop javadoc
`@`-tag lines and leading `*`s, join the surviving trimmed lines with single
spaces, and truncate to 200 characters (`result[:200]`, a character slice)
with an ellipsis when longer. -/
def clean_comment (comment : String) : String :=
  let c := pyStrip comment
  let c :=
    if pyStartsWith c "/**" && pyEndsWith c "*/" then pyStrip (pyDropRight (pyDrop c 3) 2)
    else if pyStartsWith c "/*" && pyEndsWith c "*/" then pyStrip (pyDropRight (pyDrop c 2) 2)
    else if pyStartsWith c "//" then pyStrip (pyDrop c 2)
    else if pyStartsWith c "#" then pyStrip (pyDrop c 1)
    else c
  let cleaned_lines := (pySplitChar '\n' c).filterMap (fun line =>
    let line := pyStrip line
    let line := if pyStartsWith line "*" then pyStrip (pyDrop line 1) else line
    if line ≠ "" && !pyStartsWith line "@" then some line else none)
  let result := pyJoin " " cleaned_lines
  pyTake result 200 ++ (if result.length > 200 then "..." else "")

/-- `BaseAnalyser.extract_preceding_comment(node)`: locate `node` among its
parent's children (tree-sitter node equality), then scan the siblings above
it.  `parent?` is `node.parent`. -/
def extract_preceding_comment (parent? : Option TSNode) (node : TSNode) : Option String :=
  match parent? with
  | none => none
  | some parent =>
    match parent.children.findIdx? (fun child => child == node) with
    | none => none
    | some 0 => none
    | some node_index =>
      scanPrevSiblings clean_comment ((parent.children.take node_index).reverse)

/-- `BaseAnalyser.clean_docstring`: strip quotes, keep the first line (plus
the second when the first is very short), truncate to 100 characters. -/
def clean_docstring (docstring : String) : String :=
  let d := pyStripChars docstring ['\'', '"']
  let lines := pySplitChar '\n' d
  match lines with
  | [] => d
  | first :: _ =>
    let first_line := pyStrip first
    if first_line.length < 20 && lines.length > 1 then
      pyTake (first_line ++ " " ++ pyStrip ((lines.get? 1).getD "")) 100 ++ "..."
    else
      pyTake first_line 100 ++ (if first_line.length > 100 then "..." else "")

/-- Record built by `PythonAnalyser.extract_function_info` (the keys of its
dict literal, with Python's `None`-able fields as `Option`). -/
structure PyFunctionInfo where
  name : String := ""
  parameters : String := ""
  docstring : Option String := none
  return_type : Option String := none
  is_async : Bool := false
deriving DecidableEq

/-- Record built by `PythonAnalyser.extract_class_info`.  The source
initialises `inheritance` to `[]` and overwrites it with the stripped
`argument_list` text (a string); both the empty list and the empty string are
falsy where the record is consumed, so the field is a `String` initialised to
`""`. -/
structure PyClassInfo where
  name : String := ""
  docstring : Option String := none
  methods : List PyFunctionInfo := []
  inheritance : String := ""
deriving DecidableEq

/-- Record built by `PythonAnalyser.extract_constant_info`. -/
structure PyConstantInfo where
  name : String := ""
  value : String := ""
deriving DecidableEq

/-- The structure dict built by `PythonAnalyser.extract_structure`. -/
structure PyStructure where
  imports : List String := []
  classes : List PyClassInfo := []
  functions : List PyFunctionInfo := []
  constants : List PyConstantInfo := []
deriving DecidableEq

/-- Fieldwise concatenation of two `PyStructure`s; the source's closure
mutates one shared dict in pre-order, which this pure traversal reproduces
by concatenating each node's own contributions with its children's. -/
def psAppend (a b : PyStructure) : PyStructure :=
  ⟨a.imports ++ b.imports, a.classes ++ b.classes,
   a.functions ++ b.functions, a.constants ++ b.constants⟩

/-- The docstring scan in `extract_function_info`'s `block` branch: the first
`expression_statement` whose first child is a `string` yields that string's
text (then `break`); other statements are passed over. -/
def findDocCandidate : List TSNode → Option String
  | [] => none
  | stmt :: rest =>
    if stmt.ty == "expression_statement" then
      match stmt.children.head? with
      | some expr =>
        if expr.ty == "string" then some (extract_node_text expr)
        else findDocCandidate rest
      | none => findDocCandidate rest
    else findDocCandidate rest

/-- The child dispatch of `PythonAnalyser.extract_function_info`. -/
def pyFnStep (func_info : PyFunctionInfo) (child : TSNode) : PyFunctionInfo :=
  if child.ty == "identifier" then
    { func_info with name := extract_node_text child }
  else if child.ty == "parameters" then
    { func_info with parameters := extract_node_text child }
  else if child.ty == "type" then
    { func_info with return_type := some (extract_node_text child) }
  else if child.ty == "async" then
    { func_info with is_async := true }
  else if child.ty == "block" then
    match findDocCandidate child.children with
    | some d => { func_info with docstring := some (clean_docstring d) }
    | none => func_info
  else func_info

/-- `PythonAnalyser.extract_function_info`: one pass over the node's
children, keeping the last `identifier`/`parameters`/`type` texts, setting
`is_async` on an `async` child, and reading the docstring out of a `block`
child. -/
def extract_function_info (node : TSNode) : PyFunctionInfo :=
  node.children.foldl pyFnStep {}

/-- The statement loop in `extract_class_info`'s `block` branch: the first
`expression_statement`-with-`string` sets the docstring (no `break`; later
candidates are ignored because the field is no longer `None`), and every
`function_definition` statement contributes a method record. -/
def pyClassBlockStep (class_info : PyClassInfo) (stmt : TSNode) : PyClassInfo :=
  if stmt.ty == "expression_statement" then
    match stmt.children.head? with
    | some expr =>
      if expr.ty == "string" && class_info.docstring == none then
        { class_info with docstring := some (clean_docstring (extract_node_text expr)) }
      else class_info
    | none => class_info
  else if stmt.ty == "function_definition" then
    { class_info with methods := class_info.methods ++ [extract_function_info stmt] }
  else class_info

/-- The child dispatch of `PythonAnalyser.extract_class_info`. -/
def pyClassStep (class_info : PyClassInfo) (child : TSNode) : PyClassInfo :=
  if child.ty == "identifier" then
    { class_info with name := extract_node_text child }
  else if child.ty == "argument_list" then
    { class_info with inheritance := pyStripChars (extract_node_text child) ['(', ')'] }
  else if child.ty == "block" then
    child.children.foldl pyClassBlockStep class_info
  else class_info

/-- `PythonAnalyser.extract_class_info`: name from the `identifier` child,
inheritance from the `argument_list` child stripped of parentheses, docstring
and methods from the `block` child. -/
def extract_class_info (node : TSNode) : PyClassInfo :=
  node.children.foldl pyClassStep {}

/-- Python `str.isupper()` over ASCII identifiers: at least one cased
character, and no lowercase character. -/
def pyIsUpper (s : String) : Bool :=
  s.data.any (fun c => c.isUpper || c.isLower) && s.data.all (fun c => !c.isLower)

/-- `PythonAnalyser.extract_constant_info`: for an `assignment` node whose
first child is an all-uppercase `identifier`, record the name and the raw
text of `node.children[1]`.  `node.children[0]` / `node.children[1]` raise
`IndexError` when absent. -/
def extract_constant_info (node : TSNode) : Except String (Option PyConstantInfo) :=
  if node.ty == "assignment" then
    match node.children.head? with
    | none => .error "list index out of range"
    | some left =>
      if left.ty == "identifier" then
        let name := extract_node_text left
        if pyIsUpper name then
          match node.children.get? 1 with
          | none => .error "list index out of range"
          | some v => .ok (some ⟨name, extract_node_text v⟩)
        else .ok none
      else .ok none
  else .ok none

/-- The dispatch on `node.type` in `extract_structure`'s `traverse`:
the contributions of `node` itself (before recursing into its children).
`parentTy` is `node.parent.type` (`none` at the root, whose parent is
`None`). -/
def pyVisit (parentTy : Option String) (node : TSNode) : Except String PyStructure :=
  if node.ty == "import_statement" || node.ty == "import_from_statement" then
    .ok { imports := [pyStrip (extract_node_text node)] }
  else if node.ty == "class_definition" then
    .ok { classes := [extract_class_info node] }
  else if node.ty == "function_definition" then
    .ok { functions := [extract_function_info node] }
  else if node.ty == "assignment" then
    if parentTy == some "module" then
      (extract_constant_info node).map (fun c? =>
        match c? with
        | some c => { constants := [c] }
        | none => {})
    else .ok {}
  else .ok {}

mutual
/-- `PythonAnalyser.extract_structure`'s `traverse`: visit the node, then
recurse into every child (so nested declarations are appended to the same
flat lists). -/
def pyTraverse : Option String → TSNode → Except String PyStructure
  | parentTy, .mk ty tx cs => do
    let here ← pyVisit parentTy (.mk ty tx cs)
    let rest ← pyTraverseList (some ty) cs
    pure (psAppend here rest)
def pyTraverseList : Option String → List TSNode → Except String PyStructure
  | _, [] => pure {}
  | parentTy, c :: cs => do
    let s1 ← pyTraverse parentTy c
    let s2 ← pyTraverseList parentTy cs
    pure (psAppend s1 s2)
end

/-- `PythonAnalyser.extract_structure(tree, source_code)`: traverse from the
root (whose `node.parent` is `None`). -/
def extract_structure (root : TSNode) : Except String PyStructure :=
  pyTraverse none root

/-- Python truthiness of an optional string (`if function.get('docstring'):`):
present and non-empty. -/
def optTruthy : Option String → Bool
  | some s => s ≠ ""
  | none => false

/-- `PythonFormatter.format_constant`: `f"{name} = {value}"` — the raw value
text, untruncated. -/
def format_constant (constant : PyConstantInfo) : String :=
  constant.name ++ " = " ++ constant.value

/-- The signature line built by `PythonFormatter.format_function` /
`format_method`: `def name(parameters)[ -> return_type]:`. -/
def pyFnSignature (function : PyFunctionInfo) : String :=
  "def " ++ function.name ++ "(" ++ function.parameters ++ ")" ++
    (match function.return_type with
     | some rt => if rt ≠ "" then " -> " ++ rt else ""
     | none => "") ++ ":"

/-- `PythonFormatter.format_function`: the signature line, then the docstring
line when the docstring is truthy. -/
def format_function (function : PyFunctionInfo) : String :=
  let signature := pyFnSignature function
  if optTruthy function.docstring then
    signature ++ "\n" ++ "    \x22\x22\x22" ++ (function.docstring.getD "") ++ "\x22\x22\x22"
  else signature

/-- `PythonFormatter.format_method`: as `format_function`, indented one level
(signature by four spaces, docstring by eight). -/
def format_method (method : PyFunctionInfo) : String :=
  let signature := pyFnSignature method
  if optTruthy method.docstring then
    "    " ++ signature ++ "\n" ++ "        \x22\x22\x22" ++ (method.docstring.getD "") ++ "\x22\x22\x22"
  else "    " ++ signature

/-- `PythonFormatter.format_class`.  `', '.join(inheritance)` joins the
characters of the inheritance string (it is a `str`, not a list — see
`PyClassInfo.inheritance`). -/
def format_class (class_info : PyClassInfo) : String :=
  let inheritance_str :=
    if class_info.inheritance ≠ "" then
      "(" ++ pyJoin ", " (class_info.inheritance.data.map (fun ch => String.mk [ch])) ++ ")"
    else ""
  let class_def := "class " ++ class_info.name ++ inheritance_str ++ ":"
  let withDoc :=
    if optTruthy class_info.docstring then
      [class_def, "    \x22\x22\x22" ++ (class_info.docstring.getD "") ++ "\x22\x22\x22"]
    else [class_def]
  pyJoin "\n" (withDoc ++ class_info.methods.map format_method)

/-- `PythonFormatter.format_structure`: imports, constants, classes,
functions, each non-empty section followed by an empty line. -/
def format_structure (structure_ : PyStructure) : String :=
  let formatted : List String :=
    (if structure_.imports ≠ [] then structure_.imports ++ [""] else []) ++
    (if structure_.constants ≠ [] then structure_.constants.map format_constant ++ [""] else []) ++
    (if structure_.classes ≠ [] then
      (structure_.classes.map (fun c => [format_class c, ""])).flatten else []) ++
    (if structure_.functions ≠ [] then
      (structure_.functions.map (fun f => [format_function f, ""])).flatten else [])
  pyJoin "\n" formatted

/-- `AnalyserFactory._analysers`: language id → analyser class. -/
def analyserRegistry : List (String × String) :=
  [("python", "PythonAnalyser"),
   ("javascript", "JavaScriptAnalyser"),
   ("typescript", "JavaScriptAnalyser"),
   ("java", "JavaAnalyser"),
   ("cpp", "CppAnalyser"),
   ("c", "CppAnalyser"),
   ("rust", "RustAnalyser")]

/-- `AnalyserFactory.get_analyser`: look the lowercased language up and, when
found, return a fresh instance of the class (in this embedding: its name —
the fresh instance's empty parser cache appears at the call site). -/
def get_analyser (language : String) : Option String :=
  analyserRegistry.lookup (pyToLower language)

/-- `FormatterFactory._formatters`: language id → formatter class.  Note the
absence of `typescript` and `c` entries. -/
def formatterRegistry : List (String × String) :=
  [("python", "PythonFormatter"),
   ("javascript", "JavaScriptFormatter"),
   ("java", "JavaFormatter"),
   ("cpp", "CppFormatter"),
   ("rust", "RustFormatter")]

/-- `FormatterFactory.get_formatter`. -/
def get_formatter (language : String) : Option String :=
  formatterRegistry.lookup (pyToLower language)

/-- Step 5 of the pipeline, dispatched on the analyser class:
`PythonAnalyser.extract_structure` is embedded concretely; the other four
analysers are supplied by the environment.  The language-neutral carrier of
the two shapes. -/
inductive IR where
  | py (s : PyStructure)
  | other (data : List (String × String))

/-- `analyser.extract_structure(tree, source_code)` for the analyser class
selected by the factory. -/
def extractDispatch (env : Env) (analyserClass : String) (tree : TSNode) :
    Except String IR :=
  if analyserClass == "PythonAnalyser" then
    (extract_structure tree).map IR.py
  else
    (env.extractOther analyserClass tree).map IR.other

/-- `formatter.format_structure(structure)` for the formatter class selected
by the factory. -/
def formatDispatch (env : Env) (formatterClass : String) (ir : IR) :
    Except String String :=
  match formatterClass, ir with
  | "PythonFormatter", .py s => .ok (format_structure s)
  | _, .py _ => env.formatOther formatterClass []
  | _, .other data => env.formatOther formatterClass data

/-- The `try` body of `Compressor.generate_compressed_prompt`, steps 1–8.
The result pairs the outcome (`Except.error` = an uncaught exception about to
reach the `except` clause) with the process-wide parser-construction counter.
Note that the five `# Error: ...` early returns are ordinary return values,
not exceptions, and that step 2 constructs a **fresh** analyser instance
(`analyser_class()`), so step 3 always starts from an empty parser cache. -/
def compressBody (env : Env) (ctr : Nat) (file_path : String) :
    Except String String × Nat :=
  match detect_language env file_path with
  | none => (.ok ("# Error: Could not detect language for " ++ file_path), ctr)
  | some language =>
    match get_analyser language with
    | none => (.ok ("# Error: No analyser available for language: " ++ language), ctr)
    | some analyserClass =>
      let result := get_parser_for_language env language ⟨[], ctr⟩
      let ctr' := result.2.constructions
      match result.1 with
      | none => (.ok ("# Error: No parser available for language: " ++ language), ctr')
      | some _ =>
        match env.readBytes file_path with
        | .error e => (.error e, ctr')
        | .ok source_code =>
          let tree := env.parseTree language source_code
          match extractDispatch env analyserClass tree with
          | .error e => (.error e, ctr')
          | .ok structure_ =>
            match get_formatter language with
            | none => (.ok ("# Error: No formatter available for language: " ++ language), ctr')
            | some formatterClass =>
              match formatDispatch env formatterClass structure_ with
              | .error e => (.error e, ctr')
              | .ok content =>
                let header := "# File: " ++ file_path ++ "\n# Language: " ++ language ++ "\n\n"
                (.ok (header ++ content), ctr')

/-- `Compressor.generate_compressed_prompt`: the `try` body with its
`except Exception` clause, which renders any exception as an
`# Error analyzing ...` string.  Total: no exception propagates. -/
def generate_compressed_prompt (env : Env) (ctr : Nat) (file_path : String) :
    String × Nat :=
  match compressBody env ctr file_path with
  | (.ok s, c) => (s, c)
  | (.error e, c) => ("# Error analyzing " ++ file_path ++ ": " ++ e, c)

/-- Collaborators of `CodeToPrompt._process_local_files` that live outside
the embedded code: `DATA_FILE_EXTENSIONS` and the data/notebook/raw readers
(`read_and_truncate_file`, `_process_notebook_file`, `read_file_safely` are
imported from modules whose bodies the claims do not touch; each yields
either the content string it would produce or `none`). -/
structure CoreEnv where
  dataFileExts : List String
  notebookContent : String → Option String
  dataContent : String → Option String
  readFileSafely : String → Option String

/-- One iteration of the file loop in `CodeToPrompt._process_local_files`:
priority 1 notebooks, priority 2 data files, priority 3 compression (the
compressed output is used whenever it is truthy, i.e. a non-empty string),
priority 4 the raw-content fallback.  Returns the recorded `content`, the
recorded `is_compressed` flag, and the updated parser-construction counter. -/
def processFileContent (cenv : CoreEnv) (env : Env) (hasCompressor : Bool)
    (ctr : Nat) (file_path : String) : Option String × Bool × Nat :=
  let suffix := pyToLower (pathSuffix file_path)
  let contentA := if suffix == ".ipynb" then cenv.notebookContent file_path else none
  match contentA with
  | some c => (some c, false, ctr)
  | none =>
    let contentB :=
      if cenv.dataFileExts.contains suffix then cenv.dataContent file_path else none
    match contentB with
    | some c => (some c, false, ctr)
    | none =>
      if hasCompressor then
        let result := generate_compressed_prompt env ctr file_path
        if result.1 ≠ "" then (some result.1, true, result.2)
        else
          match cenv.readFileSafely file_path with
          | some raw => (some raw, false, result.2)
          | none => (none, false, result.2)
      else
        match cenv.readFileSafely file_path with
        | some raw => (some raw, false, ctr)
        | none => (none, false, ctr)

/-- The keys of the dict literal in `PythonAnalyser.extract_function_info`
(the schema of a Python Function record). -/
def pythonFunctionInfoKeys : List String :=
  ["name", "parameters", "docstring", "return_type", "is_async"]

/-- The keys of the dict literal in `RustAnalyser.extract_function_info`
(the schema of a Rust Function record). -/
def rustFunctionInfoKeys : List String :=
  ["name", "is_public", "parameters", "return_type", "is_unsafe", "is_async"]

/-- The keys of the dict literal in `JavaAnalyser.extract_method_info`
(the schema of a Java Method record). -/
def javaMethodInfoKeys : List String :=
  ["name", "return_type", "modifiers", "parameters", "throws"]

/-- A parameter record of `RustAnalyser.extract_function_info` (a dict with
`name` and `type`). -/
structure RustParameterInfo where
  name : String := ""
  type : String := ""

/-- The record built by `RustAnalyser.extract_function_info`: `parameters`
is a list of structured parameter records (unlike the Python analyser's raw
text), and there is no documentation field of any kind. -/
structure RustFunctionInfo where
  name : String := ""
  is_public : Bool := false
  parameters : List RustParameterInfo := []
  return_type : Option String := none
  is_unsafe : Bool := false
  is_async : Bool := false

/-- A parameter record of `JavaAnalyser.extract_method_info`. -/
structure JavaParameterInfo where
  type : String := ""
  name : String := ""

/-- The record built by `JavaAnalyser.extract_method_info`: structured
parameters, modifiers and throws lists, and no documentation field. -/
structure JavaMethodInfo where
  name : String := ""
  return_type : String := ""
  modifiers : List String := []
  parameters : List JavaParameterInfo := []
  throws : List String := []

/-- A trivial environment: every parser available, every read succeeds with
an empty file, parsing yields an empty module, the non-embedded analysers
and formatters succeed with empty output. -/
def envTrivial : Env where
  parserAvailable := fun _ => true
  readBytes := fun _ => .ok ""
  firstLine := fun _ => .ok ""
  parseTree := fun _ _ => .mk "module" "" []
  extractOther := fun _ _ => .ok []
  formatOther := fun _ _ => .ok ""

/-- The tree-sitter tree of the spec's concrete scenario A:
`import foo` followed by `def bar(x, y):` at module scope. -/
def scenarioATree : TSNode :=
  .mk "module" "import foo\ndef bar(x, y):\n    pass"
    [.mk "import_statement" "import foo" [],
     .mk "function_definition" "def bar(x, y):\n    pass"
       [.mk "def" "def" [],
        .mk "identifier" "bar" [],
        .mk "parameters" "(x, y)" [],
        .mk ":" ":" [],
        .mk "block" "pass" [.mk "pass_statement" "pass" []]]]

/-- An environment whose file system holds scenario A as a Python file. -/
def envPy : Env :=
  { envTrivial with
    readBytes := fun _ => .ok "import foo\ndef bar(x, y):\n    pass"
    parseTree := fun _ _ => scenarioATree }

/-- String-literal splits of the orchestrator's five error messages at the
common `# Error` prefix. -/
theorem errlit1 : ("# Error" : String) ++ ": Could not detect language for " =
    "# Error: Could not detect language for " := by decide

theorem errlit2 : ("# Error" : String) ++ ": No analyser available for language: " =
    "# Error: No analyser available for language: " := by decide

theorem errlit3 : ("# Error" : String) ++ ": No parser available for language: " =
    "# Error: No parser available for language: " := by decide

theorem errlit4 : ("# Error" : String) ++ ": No formatter available for language: " =
    "# Error: No formatter available for language: " := by decide

theorem errlit5 : ("# Error" : String) ++ " analyzing " = "# Error analyzing " := by decide

/-- A string starting with the `# Error` prefix is never the empty string. -/
theorem err_prefix_ne_empty (t : String) : "# Error" ++ t ≠ "" := by
  intro he
  have hd := congrArg String.data he
  simp [String.data_append] at hd

/-- A string starting with the header prefix `# File: ` is never empty. -/
theorem file_prefix_ne_empty (t : String) : "# File: " ++ t ≠ "" := by
  intro he
  have hd := congrArg String.data he
  simp [String.data_append] at hd

/-- The `# Error` and `# File: ` shapes are disjoint. -/
theorem err_ne_file (a b : String) : ("# Error" ++ a) ≠ "# File: " ++ b := by
  intro h
  have hd := congrArg String.data h
  simp only [String.data_append] at hd
  have h7 := congrArg (List.take 7) hd
  simp [List.take_append_eq_append_take] at h7

/-- Shape of every orchestrator result: an `# Error ...` message, or the
two-line header (path, detected language) over some rendered content — and
the header case arises only when the formatter registry has an entry for the
detected language. -/
theorem generate_cases (env : Env) (ctr : Nat) (fp : String) :
    (∃ tail, (generate_compressed_prompt env ctr fp).1 = "# Error" ++ tail) ∨
    (∃ lang fc content, detect_language env fp = some lang ∧ get_formatter lang = some fc ∧
      (generate_compressed_prompt env ctr fp).1 =
        ("# File: " ++ fp ++ "\n# Language: " ++ lang ++ "\n\n") ++ content) := by
  cases hdet : detect_language env fp with
  | none =>
    left
    refine ⟨": Could not detect language for " ++ fp, ?_⟩
    simp [generate_compressed_prompt, compressBody, hdet, ← String.append_assoc, errlit1]
  | some lang =>
    cases han : get_analyser lang with
    | none =>
      left
      refine ⟨": No analyser available for language: " ++ lang, ?_⟩
      simp [generate_compressed_prompt, compressBody, hdet, han,
        ← String.append_assoc, errlit2]
    | some ac =>
      cases hpa : env.parserAvailable lang with
      | false =>
        left
        refine ⟨": No parser available for language: " ++ lang, ?_⟩
        simp [generate_compressed_prompt, compressBody, get_parser_for_language, hdet, han,
          hpa, ← String.append_assoc, errlit3]
      | true =>
        cases hr : env.readBytes fp with
        | error e =>
          left
          refine ⟨" analyzing " ++ fp ++ ": " ++ e, ?_⟩
          simp [generate_compressed_prompt, compressBody, get_parser_for_language, hdet,
            han, hpa, hr, ← String.append_assoc, errlit5]
        | ok src =>
          cases hx : extractDispatch env ac (env.parseTree lang src) with
          | error e =>
            left
            refine ⟨" analyzing " ++ fp ++ ": " ++ e, ?_⟩
            simp [generate_compressed_prompt, compressBody, get_parser_for_language, hdet,
              han, hpa, hr, hx, ← String.append_assoc, errlit5]
          | ok ir =>
            cases hf : get_formatter lang with
            | none =>
              left
              refine ⟨": No formatter available for language: " ++ lang, ?_⟩
              simp [generate_compressed_prompt, compressBody, get_parser_for_language, hdet,
                han, hpa, hr, hx, hf, ← String.append_assoc, errlit4]
            | some fc =>
              cases hfmt : formatDispatch env fc ir with
              | error e =>
                left
                refine ⟨" analyzing " ++ fp ++ ": " ++ e, ?_⟩
                simp [generate_compressed_prompt, compressBody, get_parser_for_language,
                  hdet, han, hpa, hr, hx, hf, hfmt, ← String.append_assoc, errlit5]
              | ok content =>
                right
                refine ⟨lang, fc, content, rfl, hf, ?_⟩
                simp [generate_compressed_prompt, compressBody, get_parser_for_language,
                  hdet, han, hpa, hr, hx, hf, hfmt]

/-- The orchestrator's result is always a non-empty string (truthy to the
caller in `core.py`). -/
theorem generate_ne_empty (env : Env) (ctr : Nat) (fp : String) :
    (generate_compressed_prompt env ctr fp).1 ≠ "" := by
  rcases generate_cases env ctr fp with ⟨tail, h⟩ | ⟨lang, fc, content, _, _, h⟩
  · rw [h]; exact err_prefix_ne_empty tail
  · rw [h]
    have : ("# File: " ++ fp ++ "\n# Language: " ++ lang ++ "\n\n") ++ content =
        "# File: " ++ (fp ++ "\n# Language: " ++ lang ++ "\n\n" ++ content) := by
      simp [String.append_assoc]
    rw [this]
    exact file_prefix_ne_empty _

/-- C1: the claim says the entry point returns "the single explicit 'cannot
compress' none signal rather than text" on failure.  Counterexample: for a
file whose language cannot be detected, `generate_compressed_prompt` returns
the non-empty error-message text `# Error: Could not detect language for
data.bin` — a truthy string, not a none signal. -/
theorem C1_counterexample :
    generate_compressed_prompt envTrivial 0 "data.bin" =
      ("# Error: Could not detect language for data.bin", 0) ∧
    ("# Error: Could not detect language for data.bin" : String) ≠ "" := by
  constructor
  · rfl
  · decide

/-- C1 (amended): for every file path and every behaviour of the external
collaborators, the compressor's entry point never propagates an exception
(it is total, the `except` clause rendering any raised exception as text)
and always returns either an `# Error ...` message string or skeleton text
beginning with the two-line header — never a none signal. -/
theorem C1_amended (env : Env) (ctr : Nat) (fp : String) :
    (∃ tail, (generate_compressed_prompt env ctr fp).1 = "# Error" ++ tail) ∨
    (∃ tail, (generate_compressed_prompt env ctr fp).1 = "# File: " ++ tail) := by
  rcases generate_cases env ctr fp with ⟨tail, h⟩ | ⟨lang, fc, content, _, _, h⟩
  · exact Or.inl ⟨tail, h⟩
  · refine Or.inr ⟨fp ++ "\n# Language: " ++ lang ++ "\n\n" ++ content, ?_⟩
    rw [h]; simp [String.append_assoc]

/-- The collaborator behaviour used for the `core.py` evaluation: no
notebook or data-file handling applies, and the raw reader would return the
string `raw file content`. -/
def cenvSample : CoreEnv where
  dataFileExts := [".csv", ".tsv", ".json", ".jsonl", ".xml", ".yaml", ".yml"]
  notebookContent := fun _ => none
  dataContent := fun _ => none
  readFileSafely := fun _ => some "raw file content"

/-- C2: with compression enabled, compressing `x.ts` fails (no formatter is
registered for typescript), yet the assembly pipeline records the
compressor's error message — not the raw file content — as the file's
content, and marks the file compressed: the raw-content fallback is
unreachable because the compressor's output is always a truthy string. -/
theorem C2_code_eval :
    processFileContent cenvSample envTrivial true 0 "x.ts" =
      (some "# Error: No formatter available for language: typescript", true, 1) ∧
    cenvSample.readFileSafely "x.ts" = some "raw file content" ∧
    ("# Error: No formatter available for language: typescript" : String) ≠
      "raw file content" := by
  refine ⟨rfl, rfl, by decide⟩

/-- C3: the claim says a registered-language file yields either none or
header-shaped text.  Counterexample: `x.ts` has a registered extension
(typescript), yet the result is the error text `# Error: No formatter
available for language: typescript` — not a none signal (non-empty) and not
text beginning with the header. -/
theorem C3_counterexample :
    EXTENSION_TO_LANGUAGE.lookup ".ts" = some "typescript" ∧
    generate_compressed_prompt envTrivial 0 "x.ts" =
      ("# Error: No formatter available for language: typescript", 1) ∧
    pyStartsWith "# Error: No formatter available for language: typescript"
      "# File: " = false ∧
    ("# Error: No formatter available for language: typescript" : String) ≠ "" := by
  refine ⟨by decide, rfl, by decide, by decide⟩

/-- C3 (amended): for every file whose extension maps to a registered
language, `generate_compressed_prompt` returns either an error-message
string beginning `# Error`, or text beginning with the two-line header
containing the exact input file path and the detected language id, followed
by a blank line, followed by the rendered skeleton. -/
theorem C3_amended (env : Env) (ctr : Nat) (fp lang : String)
    (h : EXTENSION_TO_LANGUAGE.lookup (pyToLower (pathSuffix fp)) = some lang) :
    (∃ tail, (generate_compressed_prompt env ctr fp).1 = "# Error" ++ tail) ∨
    (∃ content, (generate_compressed_prompt env ctr fp).1 =
      ("# File: " ++ fp ++ "\n# Language: " ++ lang ++ "\n\n") ++ content) := by
  rcases generate_cases env ctr fp with ⟨tail, hh⟩ | ⟨lang', fc, content, hdet, _, hh⟩
  · exact Or.inl ⟨tail, hh⟩
  · have hdet' : detect_language env fp = some lang := by
      simp [detect_language, h]
    rw [hdet'] at hdet
    cases hdet
    exact Or.inr ⟨content, hh⟩

/-- Witness for `C3_amended` at the concrete scenario-A environment. -/
theorem C3_witness :
    EXTENSION_TO_LANGUAGE.lookup (pyToLower (pathSuffix "a.py")) = some "python" ∧
    ((∃ tail, (generate_compressed_prompt envPy 0 "a.py").1 = "# Error" ++ tail) ∨
     (∃ content, (generate_compressed_prompt envPy 0 "a.py").1 =
       ("# File: " ++ "a.py" ++ "\n# Language: " ++ "python" ++ "\n\n") ++ content)) :=
  ⟨by decide, C3_amended envPy 0 "a.py" "python" (by decide)⟩

mutual
/-- Number of nodes of type `ty` anywhere in the tree (the node itself
included). -/
def countTy (ty : String) : TSNode → Nat
  | .mk t _ cs => (if t == ty then 1 else 0) + countTyList ty cs
def countTyList (ty : String) : List TSNode → Nat
  | [] => 0
  | c :: cs => countTy ty c + countTyList ty cs
end

/-- `pyVisit` contributes one function record exactly on a
`function_definition` node and one class record exactly on a
`class_definition` node. -/
theorem pyVisit_counts (pty : Option String) (n : TSNode) (v : PyStructure)
    (h : pyVisit pty n = .ok v) :
    v.functions.length = (if n.ty == "function_definition" then 1 else 0) ∧
    v.classes.length = (if n.ty == "class_definition" then 1 else 0) := by
  unfold pyVisit at h
  by_cases h1 : (n.ty == "import_statement" || n.ty == "import_from_statement") = true
  · rw [if_pos h1] at h
    cases h
    simp only [Bool.or_eq_true, beq_iff_eq] at h1
    rcases h1 with h1 | h1 <;> simp [h1]
  · rw [if_neg h1] at h
    by_cases h2 : (n.ty == "class_definition") = true
    · rw [if_pos h2] at h
      cases h
      have : (n.ty == "function_definition") = false := by
        cases h3 : n.ty == "function_definition"
        · rfl
        · exact absurd (eq_of_beq h2 ▸ eq_of_beq h3) (by decide)
      simp [h2, this]
    · rw [if_neg h2] at h
      by_cases h3 : (n.ty == "function_definition") = true
      · rw [if_pos h3] at h
        cases h
        simp [h2, h3]
      · rw [if_neg h3] at h
        by_cases h4 : (n.ty == "assignment") = true
        · rw [if_pos h4] at h
          by_cases h5 : (pty == some "module") = true
          · rw [if_pos h5] at h
            cases hc : extract_constant_info n with
            | error e => rw [hc] at h; simp [Except.map] at h
            | ok c? =>
              rw [hc] at h
              simp only [Except.map, Except.ok.injEq] at h
              cases c? with
              | none => cases h; simp [h2, h3]
              | some c => cases h; simp [h2, h3]
          · rw [if_neg h5] at h
            cases h
            simp [h2, h3]
        · rw [if_neg h4] at h
          cases h
          simp [h2, h3]

mutual
/-- Every `function_definition` node anywhere in the tree — methods and
nested functions included — contributes one record to the flat `functions`
list, and every `class_definition` node one record to `classes`. -/
theorem pyTraverse_counts : ∀ (pty : Option String) (n : TSNode) (s : PyStructure),
    pyTraverse pty n = .ok s →
    s.functions.length = countTy "function_definition" n ∧
    s.classes.length = countTy "class_definition" n
  | pty, .mk t tx cs, s, h => by
    rw [pyTraverse] at h
    cases hv : pyVisit pty (.mk t tx cs) with
    | error e => rw [hv] at h; simp [bind, Except.bind] at h
    | ok here =>
      rw [hv] at h
      cases hl : pyTraverseList (some t) cs with
      | error e => rw [hl] at h; simp [bind, Except.bind] at h
      | ok rest =>
        rw [hl] at h
        simp only [bind, Except.bind, pure, Except.pure, Except.ok.injEq] at h
        subst h
        obtain ⟨hf, hc⟩ := pyVisit_counts pty (.mk t tx cs) here hv
        obtain ⟨hf2, hc2⟩ := pyTraverseList_counts (some t) cs rest hl
        constructor <;>
          simp [psAppend, hf, hc, hf2, hc2, countTy, TSNode.ty]
theorem pyTraverseList_counts : ∀ (pty : Option String) (cs : List TSNode) (s : PyStructure),
    pyTraverseList pty cs = .ok s →
    s.functions.length = countTyList "function_definition" cs ∧
    s.classes.length = countTyList "class_definition" cs
  | pty, [], s, h => by
    simp only [pyTraverseList, pure, Except.pure, Except.ok.injEq] at h
    subst h
    simp [countTyList]
  | pty, c :: cs, s, h => by
    rw [pyTraverseList] at h
    cases h1 : pyTraverse pty c with
    | error e => rw [h1] at h; simp [bind, Except.bind] at h
    | ok s1 =>
      rw [h1] at h
      cases h2 : pyTraverseList pty cs with
      | error e => rw [h2] at h; simp [bind, Except.bind] at h
      | ok s2 =>
        rw [h2] at h
        simp only [bind, Except.bind, pure, Except.pure, Except.ok.injEq] at h
        subst h
        obtain ⟨ha, hb⟩ := pyTraverse_counts pty c s1 h1
        obtain ⟨hc, hd⟩ := pyTraverseList_counts pty cs s2 h2
        constructor <;> simp [psAppend, ha, hb, hc, hd, countTyList]
end

/-- If `s` beq-equals `a` and `a ≠ b` then `s` does not beq-equal `b`. -/
theorem beq_false_of_beq_of_ne {s a b : String} (h : (s == a) = true) (hne : a ≠ b) :
    (s == b) = false := by
  cases hb : s == b
  · rfl
  · exact absurd ((eq_of_beq h).symm.trans (eq_of_beq hb)) hne

/-- One statement of a class body adds a method record exactly when it is a
`function_definition`. -/
theorem pyClassBlockStep_methods_len (ci : PyClassInfo) (stmt : TSNode) :
    (pyClassBlockStep ci stmt).methods.length =
      ci.methods.length + (if stmt.ty == "function_definition" then 1 else 0) := by
  unfold pyClassBlockStep
  by_cases h1 : (stmt.ty == "expression_statement") = true
  · have h2 : (stmt.ty == "function_definition") = false :=
      beq_false_of_beq_of_ne h1 (by decide)
    rw [if_pos h1, h2]
    cases stmt.children.head? with
    | none => simp
    | some e =>
      by_cases hd : (e.ty == "string" && ci.docstring == none) = true
      · simp [hd]
      · simp [hd]
  · rw [if_neg h1]
    by_cases h2 : (stmt.ty == "function_definition") = true
    · rw [if_pos h2, if_pos h2]
      simp
    · rw [if_neg h2, if_neg h2]
      simp
  
/-- Folding a class body: the method count grows by the number of
`function_definition` statements. -/
theorem classBlock_fold_methods_len (stmts : List TSNode) (ci : PyClassInfo) :
    (stmts.foldl pyClassBlockStep ci).methods.length =
      ci.methods.length + stmts.countP (fun st => st.ty == "function_definition") := by
  induction stmts generalizing ci with
  | nil => simp
  | cons s rest ih =>
    rw [List.foldl_cons, ih, pyClassBlockStep_methods_len, List.countP_cons]
    omega

/-- One child of a class node adds methods exactly when it is the `block`
child, one per `function_definition` statement. -/
theorem pyClassStep_methods_len (ci : PyClassInfo) (child : TSNode) :
    (pyClassStep ci child).methods.length =
      ci.methods.length +
        (if child.ty == "block" then
          child.children.countP (fun st => st.ty == "function_definition")
         else 0) := by
  unfold pyClassStep
  by_cases h1 : (child.ty == "identifier") = true
  · rw [if_pos h1, beq_false_of_beq_of_ne h1 (by decide)]
    simp
  · rw [if_neg h1]
    by_cases h2 : (child.ty == "argument_list") = true
    · rw [if_pos h2, beq_false_of_beq_of_ne h2 (by decide)]
      simp
    · rw [if_neg h2]
      by_cases h3 : (child.ty == "block") = true
      · rw [if_pos h3, if_pos h3, classBlock_fold_methods_len]
      · rw [if_neg h3, if_neg h3]
        simp

/-- The method list of an extracted class record has one entry per
`function_definition` statement sitting directly in a `block` child of the
class node. -/
theorem extract_class_info_methods_len (node : TSNode) :
    (extract_class_info node).methods.length =
      ((node.children.map (fun ch =>
        if ch.ty == "block" then
          ch.children.countP (fun st => st.ty == "function_definition")
        else 0)).sum) := by
  unfold extract_class_info
  have key : ∀ (cs : List TSNode) (ci : PyClassInfo),
      (cs.foldl pyClassStep ci).methods.length =
        ci.methods.length + ((cs.map (fun ch =>
          if ch.ty == "block" then
            ch.children.countP (fun st => st.ty == "function_definition")
          else 0)).sum) := by
    intro cs
    induction cs with
    | nil => simp
    | cons c rest ih =>
      intro ci
      rw [List.foldl_cons, ih, pyClassStep_methods_len, List.map_cons, List.sum_cons]
      omega
  rw [key]
  simp

/-- A module defining one class `A` with one method `m` (N = 1 top-level
function `f`, M = 1 class, K = 1 method). -/
def cx4Tree : TSNode :=
  .mk "module" "class A:\n    def m(self):\n        pass\ndef f():\n    pass"
    [.mk "class_definition" "class A:\n    def m(self):\n        pass"
       [.mk "class" "class" [],
        .mk "identifier" "A" [],
        .mk ":" ":" [],
        .mk "block" "def m(self):\n        pass"
          [.mk "function_definition" "def m(self):\n        pass"
             [.mk "def" "def" [],
              .mk "identifier" "m" [],
              .mk "parameters" "(self)" [],
              .mk ":" ":" [],
              .mk "block" "pass" [.mk "pass_statement" "pass" []]]]],
     .mk "function_definition" "def f():\n    pass"
       [.mk "def" "def" [],
        .mk "identifier" "f" [],
        .mk "parameters" "()" [],
        .mk ":" ":" [],
        .mk "block" "pass" [.mk "pass_statement" "pass" []]]]

/-- C4: the claim requires exactly N = 1 record in the top-level functions
list for a file with one top-level function, one class and one method.
Counterexample: the traversal recurses into class bodies and appends every
`function_definition` node to the same flat list, so the functions list has
2 records (the method `m` is double-counted), while classes = 1 with 1
method. -/
theorem C4_counterexample :
    (extract_structure cx4Tree).toOption.map
      (fun s => (s.functions.length, s.classes.length,
        (s.classes.map (fun c => c.methods.length)).sum)) = some (2, 1, 1) ∧
    (2 : Nat) ≠ 1 := by
  constructor
  · rfl
  · decide

/-- C4 (amended): the extracted `functions` list has one record for every
`function_definition` node anywhere in the tree (top-level functions plus
all methods and nested functions), the `classes` list one record for every
`class_definition` node anywhere, and each class record's method list has
one entry per `function_definition` statement directly inside a `block`
child of its class node — so the per-class method lists still sum to K for
module-level classes. -/
theorem C4_amended (root : TSNode) (s : PyStructure)
    (h : extract_structure root = .ok s) :
    s.functions.length = countTy "function_definition" root ∧
    s.classes.length = countTy "class_definition" root ∧
    ∀ node : TSNode, (extract_class_info node).methods.length =
      ((node.children.map (fun ch =>
        if ch.ty == "block" then
          ch.children.countP (fun st => st.ty == "function_definition")
        else 0)).sum) := by
  obtain ⟨hf, hc⟩ := pyTraverse_counts none root s h
  exact ⟨hf, hc, extract_class_info_methods_len⟩

/-- Witness for `C4_amended` at the concrete two-declaration module. -/
theorem C4_witness :
    extract_structure cx4Tree = .ok
      ⟨[],
       [⟨"A", none, [⟨"m", "(self)", none, none, false⟩], ""⟩],
       [⟨"m", "(self)", none, none, false⟩, ⟨"f", "()", none, none, false⟩],
       []⟩ ∧
    ((extract_structure cx4Tree = .ok
      ⟨[],
       [⟨"A", none, [⟨"m", "(self)", none, none, false⟩], ""⟩],
       [⟨"m", "(self)", none, none, false⟩, ⟨"f", "()", none, none, false⟩],
       []⟩) →
     ([⟨"m", "(self)", none, none, false⟩, ⟨"f", "()", none, none, false⟩] :
        List PyFunctionInfo).length = countTy "function_definition" cx4Tree) :=
  ⟨by rfl, fun hh => (C4_amended cx4Tree _ hh).1⟩

/-- Looking up a key just appended to a cache that did not contain it. -/
theorem lookup_append_last (l : List (String × Nat)) (k : String) (v : Nat)
    (h : l.lookup k = none) : (l ++ [(k, v)]).lookup k = some v := by
  induction l with
  | nil => simp [List.lookup]
  | cons p rest ih =>
    obtain ⟨a, b⟩ := p
    rw [List.cons_append]
    by_cases hk : (k == a) = true
    · simp only [List.lookup, hk] at h
      cases h
    · simp only [List.lookup, hk] at h ⊢
      exact ih h

/-- C5: the claim says each language's parser is constructed at most once
per process and reused while compressing later files.  Counterexample: two
consecutive compress calls on the same Python file construct a parser each
(the process-wide construction counter goes 0 → 1 → 2), because
`AnalyserFactory.get_analyser` builds a fresh analyser — with an empty
parser cache — for every file. -/
theorem C5_counterexample :
    (generate_compressed_prompt envPy 0 "a.py").2 = 1 ∧
    (generate_compressed_prompt envPy
      (generate_compressed_prompt envPy 0 "a.py").2 "a.py").2 = 2 := by
  constructor <;> rfl

/-- C5 (amended): the parser cache is per analyser instance.  Within one
`BaseAnalyser` instance a second request for the same language returns the
same cached parser instance with the cache unchanged; but the orchestrator
obtains a fresh analyser instance per call, so every compress call on a
detected language with an available grammar performs exactly one new parser
construction. -/
theorem C5_amended :
    (∀ (env : Env) (language : String) (st st' : AnalyserState) (p : Nat),
      get_parser_for_language env language st = (some p, st') →
      get_parser_for_language env language st' = (some p, st')) ∧
    (∀ (env : Env) (ctr : Nat) (fp lang ac : String),
      detect_language env fp = some lang →
      get_analyser lang = some ac →
      env.parserAvailable lang = true →
      (generate_compressed_prompt env ctr fp).2 = ctr + 1) := by
  constructor
  · intro env language st st' p h
    unfold get_parser_for_language at h ⊢
    cases hl : st.parsers.lookup language with
    | some pid =>
      rw [hl] at h
      obtain ⟨hp, hst⟩ := Prod.mk.injEq .. ▸ h
      cases hp
      subst hst
      rw [hl]
    | none =>
      rw [hl] at h
      by_cases hpa : env.parserAvailable language = true
      · rw [if_pos hpa] at h
        obtain ⟨hp, hst⟩ := Prod.mk.injEq .. ▸ h
        cases hp
        subst hst
        rw [lookup_append_last _ _ _ hl]
      · rw [if_neg hpa] at h
        exact absurd (congrArg Prod.fst h) (by simp)
  · intro env ctr fp lang ac hdet han hpa
    unfold generate_compressed_prompt compressBody
    simp only [hdet, han, get_parser_for_language, List.lookup, hpa, if_true]
    cases env.readBytes fp with
    | error e => rfl
    | ok src =>
      dsimp only
      cases extractDispatch env ac (env.parseTree lang src) with
      | error e => rfl
      | ok ir =>
        dsimp only
        cases get_formatter lang with
        | none => rfl
        | some fc =>
          dsimp only
          cases formatDispatch env fc ir with
          | error e => rfl
          | ok content => rfl

/-- Witness for `C5_amended` (second part) at the scenario-A environment. -/
theorem C5_witness :
    detect_language envPy "a.py" = some "python" ∧
    get_analyser "python" = some "PythonAnalyser" ∧
    envPy.parserAvailable "python" = true ∧
    (generate_compressed_prompt envPy 0 "a.py").2 = 0 + 1 :=
  ⟨rfl, rfl, rfl, C5_amended.2 envPy 0 "a.py" "python" "PythonAnalyser" rfl rfl rfl⟩

/-- Truncating to 200 characters and appending at most an ellipsis yields at
most 203 characters. -/
theorem trunc203 (r : String) :
    (pyTake r 200 ++ (if r.length > 200 then "..." else "")).length ≤ 203 := by
  have htake : (pyTake r 200).length ≤ 200 := by
    have : (pyTake r 200).length = (r.data.take 200).length := rfl
    rw [this, List.length_take]
    omega
  by_cases h : r.length > 200
  · rw [if_pos h, String.length_append]
    have : ("..." : String).length = 3 := by decide
    omega
  · rw [if_neg h, String.length_append]
    have : ("" : String).length = 0 := by decide
    omega

/-- `clean_comment` always produces at most 203 characters (200 plus the
ellipsis). -/
theorem clean_comment_length_le (s : String) : (clean_comment s).length ≤ 203 := by
  unfold clean_comment
  exact trunc203 _

/-- Characterisation of the backwards sibling scan: it returns nothing, or
the sibling list splits as some `modifiers` nodes followed by the nearest
comment sibling, whose cleaned text is the result. -/
theorem scanPrevSiblings_spec (clean : String → String) :
    ∀ l : List TSNode, scanPrevSiblings clean l = none ∨
    ∃ mods sib rest, l = mods ++ sib :: rest ∧
      (∀ m ∈ mods, m.ty = "modifiers") ∧
      (sib.ty = "line_comment" ∨ sib.ty = "block_comment") ∧
      scanPrevSiblings clean l = some (clean (extract_node_text sib))
  | [] => Or.inl rfl
  | sib :: rest => by
    by_cases h1 : (sib.ty == "line_comment" || sib.ty == "block_comment") = true
    · right
      refine ⟨[], sib, rest, rfl, by simp, ?_, ?_⟩
      · simpa [beq_iff_eq] using h1
      · unfold scanPrevSiblings
        rw [if_pos h1]
    · by_cases h2 : (sib.ty == "modifiers") = true
      · rcases scanPrevSiblings_spec clean rest with h | ⟨mods, s2, r2, heq, hm, hc, hs⟩
        · left
          unfold scanPrevSiblings
          rw [if_neg h1, if_pos h2]
          exact h
        · right
          refine ⟨sib :: mods, s2, r2, by simp [heq], ?_, hc, ?_⟩
          · intro m hm'
            rcases hm' with _ | hm'
            · exact eq_of_beq h2
            · exact hm m (by assumption)
          · unfold scanPrevSiblings
            rw [if_neg h1, if_pos h2]
            exact hs
      · left
        unfold scanPrevSiblings
        rw [if_neg h1, if_neg h2]

/-- Modelled from the spec: "the first contiguous run of comment-kind
siblings (stopping at the first sibling that is neither a comment nor a
modifier token) is treated as that declaration's documentation, concatenated
and then cleaned".  The run is collected scanning upward from the
declaration, modifier tokens are passed over without ending the run, and the
comments are concatenated in document order before cleaning. -/
def specPrecedingDocumentation (parent? : Option TSNode) (node : TSNode) : Option String :=
  match parent? with
  | none => none
  | some parent =>
    match parent.children.findIdx? (fun c => c == node) with
    | none => none
    | some idx =>
      let above := (parent.children.take idx).reverse
      let run := (above.takeWhile (fun s =>
        s.ty == "line_comment" || s.ty == "block_comment" || s.ty == "modifiers")).filter
          (fun s => s.ty == "line_comment" || s.ty == "block_comment")
      if run.isEmpty then none
      else some (clean_comment (pyJoin "\n" (run.reverse.map extract_node_text)))

/-- Two consecutive line comments above a declaration. -/
def cx6Parent : TSNode :=
  .mk "class_body" ""
    [.mk "line_comment" "// first" [],
     .mk "line_comment" "// second" [],
     .mk "method_declaration" "void m() {}" []]

/-- The declaration node of `cx6Parent`. -/
def cx6Decl : TSNode := .mk "method_declaration" "void m() {}" []

/-- C6: the claim says the attached documentation is the whole contiguous
comment run above the declaration, concatenated.  Counterexample: with two
consecutive line comments `// first` and `// second` above a declaration,
the code attaches only the nearest one (`second`); the spec-modelled
concatenation of the run retains both. -/
theorem C6_counterexample :
    extract_preceding_comment (some cx6Parent) cx6Decl = some "second" ∧
    specPrecedingDocumentation (some cx6Parent) cx6Decl = some "first // second" ∧
    ("second" : String) ≠ "first // second" := by
  refine ⟨rfl, rfl, by decide⟩

/-- C6 (amended): the documentation attached to a declaration is the nearest
single comment-kind sibling above it — not the concatenated run: scanning
upward, `modifiers` nodes are skipped and the scan stops at the first other
non-comment sibling; the one comment found is cleaned (markers stripped,
lines collapsed) and truncated to 200 characters with an ellipsis marker
when longer (at most 203 characters in all). -/
theorem C6_amended (parent node : TSNode) (idx : Nat)
    (hidx : parent.children.findIdx? (fun c => c == node) = some idx) :
    extract_preceding_comment (some parent) node = none ∨
    ∃ mods sib rest,
      (parent.children.take idx).reverse = mods ++ sib :: rest ∧
      (∀ m ∈ mods, m.ty = "modifiers") ∧
      (sib.ty = "line_comment" ∨ sib.ty = "block_comment") ∧
      extract_preceding_comment (some parent) node =
        some (clean_comment (extract_node_text sib)) ∧
      (clean_comment (extract_node_text sib)).length ≤ 203 := by
  unfold extract_preceding_comment
  dsimp only
  rw [hidx]
  cases idx with
  | zero => exact Or.inl rfl
  | succ n =>
    rcases scanPrevSiblings_spec clean_comment ((parent.children.take (n + 1)).reverse) with
      h | ⟨mods, sib, rest, heq, hm, hc, hs⟩
    · exact Or.inl h
    · exact Or.inr ⟨mods, sib, rest, heq, hm, hc, hs, clean_comment_length_le _⟩

/-- Witness for `C6_amended` at the two-comment input. -/
theorem C6_witness :
    cx6Parent.children.findIdx? (fun c => c == cx6Decl) = some 2 ∧
    (extract_preceding_comment (some cx6Parent) cx6Decl = none ∨
     ∃ mods sib rest,
       (cx6Parent.children.take 2).reverse = mods ++ sib :: rest ∧
       (∀ m ∈ mods, m.ty = "modifiers") ∧
       (sib.ty = "line_comment" ∨ sib.ty = "block_comment") ∧
       extract_preceding_comment (some cx6Parent) cx6Decl =
         some (clean_comment (extract_node_text sib)) ∧
       (clean_comment (extract_node_text sib)).length ≤ 203) :=
  ⟨rfl, C6_amended cx6Parent cx6Decl 2 rfl⟩

/-- A 60-character raw value text. -/
def cx7Value : String := "012345678901234567890123456789012345678901234567890123456789"

/-- A module with one all-uppercase assignment whose value text has 60
characters. -/
def cx7Tree : TSNode :=
  .mk "module" ""
    [.mk "assignment" ""
       [.mk "identifier" "CONFIG" [],
        .mk "integer" cx7Value []]]

/-- C7: the claim says the recorded raw value text is truncated to a bounded
length of about 50 characters with an ellipsis marker when longer.
Counterexample: a captured constant whose value text has 60 characters is
recorded in full — no truncation, no ellipsis — and rendered in full by
`format_constant`. -/
theorem C7_counterexample :
    (extract_structure cx7Tree).toOption.map
      (fun s => s.constants.map (fun c => (c.name, c.value))) =
      some [("CONFIG", cx7Value)] ∧
    cx7Value.length = 60 ∧
    pyEndsWith cx7Value "..." = false ∧
    ¬ cx7Value.length ≤ 53 ∧
    format_constant ⟨"CONFIG", cx7Value⟩ = "CONFIG = " ++ cx7Value := by
  refine ⟨rfl, by decide, by decide, by decide, by decide⟩

/-- C7 (amended): a Constant record is captured iff the assignment node sits
with parent of type `module`, its first child is an `identifier` whose name
satisfies Python's `isupper`, and a second child exists; the recorded raw
value text is the full text of `node.children[1]`, untruncated, and
`format_constant` renders it at full length. -/
theorem C7_amended :
    (∀ (tx : String) (left v : TSNode) (rest : List TSNode),
      extract_constant_info (.mk "assignment" tx (left :: v :: rest)) =
        (if left.ty == "identifier" && pyIsUpper (extract_node_text left) then
          .ok (some ⟨extract_node_text left, extract_node_text v⟩)
        else .ok none)) ∧
    (∀ (pty : Option String) (node : TSNode), node.ty = "assignment" →
      (pty == some "module") = false → pyVisit pty node = .ok ⟨[], [], [], []⟩) ∧
    (∀ c : PyConstantInfo, (format_constant c).length =
      c.name.length + 3 + c.value.length) := by
  refine ⟨?_, ?_, ?_⟩
  · intro tx left v rest
    obtain ⟨lt, ltx, lcs⟩ := left
    cases h1 : lt == "identifier" <;>
      cases h2 : pyIsUpper ltx <;>
        simp [extract_constant_info, TSNode.ty, TSNode.children, extract_node_text,
          TSNode.text, h1, h2]
  · intro pty node hty hpty
    obtain ⟨t, tx, cs⟩ := node
    simp only [TSNode.ty] at hty
    subst hty
    simp [pyVisit, TSNode.ty, hpty]
  · intro c
    unfold format_constant
    rw [String.length_append, String.length_append]
    have h3 : (" = " : String).length = 3 := by decide
    omega

/-- C8: the claim says a record of the same kind carries the same semantic
fields across languages, e.g. every Function record has a documentation
field.  Counterexample: the Python analyser's function records carry a
`docstring` key; the Rust analyser's function records and the Java
analyser's method records carry no documentation key at all, and their key
sets differ from Python's. -/
theorem C8_counterexample :
    "docstring" ∈ pythonFunctionInfoKeys ∧
    "docstring" ∉ rustFunctionInfoKeys ∧
    "docstring" ∉ javaMethodInfoKeys ∧
    pythonFunctionInfoKeys ≠ rustFunctionInfoKeys ∧
    pythonFunctionInfoKeys ≠ javaMethodInfoKeys := by
  refine ⟨by decide, by decide, by decide, by decide, by decide⟩

/-- C8 (amended): the function/method record schemas differ per language —
Python records name, raw parameter text, docstring, return type and an
async flag; Rust records name, visibility, a structured parameter list,
return type, unsafe and async flags and no documentation; Java records
name, return type, modifiers, a structured parameter list and throws and no
documentation.  Only the `name`, `parameters` and `return_type` keys are
common to all three; the registries instead pair each language with its own
analyser/formatter so each formatter only ever consumes its own language's
shape. -/
theorem C8_amended :
    rustFunctionInfoKeys ≠ javaMethodInfoKeys ∧
    ("name" ∈ pythonFunctionInfoKeys ∧ "name" ∈ rustFunctionInfoKeys ∧
     "name" ∈ javaMethodInfoKeys) ∧
    ("parameters" ∈ pythonFunctionInfoKeys ∧ "parameters" ∈ rustFunctionInfoKeys ∧
     "parameters" ∈ javaMethodInfoKeys) ∧
    ("is_unsafe" ∈ rustFunctionInfoKeys ∧ "is_unsafe" ∉ pythonFunctionInfoKeys ∧
     "throws" ∈ javaMethodInfoKeys ∧ "throws" ∉ pythonFunctionInfoKeys) ∧
    (get_analyser "python" = some "PythonAnalyser" ∧
     get_formatter "python" = some "PythonFormatter") ∧
    (get_analyser "rust" = some "RustAnalyser" ∧
     get_formatter "rust" = some "RustFormatter") ∧
    (get_analyser "java" = some "JavaAnalyser" ∧
     get_formatter "java" = some "JavaFormatter") := by
  refine ⟨by decide, ⟨by decide, by decide, by decide⟩, ⟨by decide, by decide, by decide⟩,
    ⟨by decide, by decide, by decide, by decide⟩, ⟨rfl, rfl⟩, ⟨rfl, rfl⟩, ⟨rfl, rfl⟩⟩

/-- A docstring candidate in a Python function body: an
`expression_statement` whose first child is a `string`. -/
def isDocStmt (stmt : TSNode) : Bool :=
  stmt.ty == "expression_statement" &&
    (match stmt.children.head? with
     | some e => e.ty == "string"
     | none => false)

/-- Delete every non-docstring statement from a `block` child; leave other
children untouched. -/
def scrubChild (child : TSNode) : TSNode :=
  if child.ty == "block" then
    .mk child.ty child.text (child.children.filter isDocStmt)
  else child

/-- Delete every executable (non-docstring-candidate) statement from the
node's function body. -/
def scrubFnBody (node : TSNode) : TSNode :=
  .mk node.ty node.text (node.children.map scrubChild)

/-- The docstring scan only ever sees the docstring candidates: deleting the
other statements does not change its result. -/
theorem findDocCandidate_filter (l : List TSNode) :
    findDocCandidate (l.filter isDocStmt) = findDocCandidate l := by
  induction l with
  | nil => rfl
  | cons s rest ih =>
    by_cases h1 : (s.ty == "expression_statement") = true
    · cases hh : s.children.head? with
      | none =>
        have hd : isDocStmt s = false := by simp [isDocStmt, hh]
        rw [List.filter_cons_of_neg (by simp [hd])]
        simp [findDocCandidate, h1, hh, ih]
      | some e =>
        by_cases h2 : (e.ty == "string") = true
        · have hd : isDocStmt s = true := by simp [isDocStmt, h1, hh, h2]
          rw [List.filter_cons_of_pos hd]
          simp [findDocCandidate, h1, hh, h2]
        · have hd : isDocStmt s = false := by simp [isDocStmt, hh, h2]
          rw [List.filter_cons_of_neg (by simp [hd])]
          simp [findDocCandidate, h1, hh, h2, ih]
    · have hd : isDocStmt s = false := by simp [isDocStmt, h1]
      rw [List.filter_cons_of_neg (by simp [hd])]
      simp [findDocCandidate, h1, ih]

/-- The type of a scrubbed child is unchanged. -/
theorem scrubChild_ty (child : TSNode) : (scrubChild child).ty = child.ty := by
  unfold scrubChild
  split
  · rfl
  · rfl

/-- One step of `extract_function_info` cannot tell a scrubbed child from
the original: the body statements never reach the record. -/
theorem pyFnStep_scrub (fi : PyFunctionInfo) (child : TSNode) :
    pyFnStep fi (scrubChild child) = pyFnStep fi child := by
  by_cases hb : (child.ty == "block") = true
  · have e1 : (child.ty == "identifier") = false :=
      beq_false_of_beq_of_ne hb (by decide)
    have e2 : (child.ty == "parameters") = false :=
      beq_false_of_beq_of_ne hb (by decide)
    have e3 : (child.ty == "type") = false :=
      beq_false_of_beq_of_ne hb (by decide)
    have e4 : (child.ty == "async") = false :=
      beq_false_of_beq_of_ne hb (by decide)
    unfold pyFnStep
    rw [scrubChild_ty, e1, e2, e3, e4]
    simp only [Bool.false_eq_true, if_false]
    rw [if_pos hb, if_pos hb]
    unfold scrubChild
    rw [if_pos hb]
    simp only [TSNode.children]
    rw [findDocCandidate_filter]
  · unfold scrubChild
    rw [if_neg hb]


/-- C10: `.ts`/`.tsx` and `.c`/`.h` files detect to languages (`typescript`,
`c`) that have a registered analyser but no registered formatter, so the
orchestrator never produces a skeleton for them: its output never has the
`# File:` header shape, and whenever steps 1–5 succeed it fails exactly at
the get-formatter step with the corresponding error message. -/
theorem C10_theorem :
    (get_analyser "typescript" = some "JavaScriptAnalyser" ∧
     get_analyser "c" = some "CppAnalyser") ∧
    (get_formatter "typescript" = none ∧ get_formatter "c" = none) ∧
    (EXTENSION_TO_LANGUAGE.lookup ".ts" = some "typescript" ∧
     EXTENSION_TO_LANGUAGE.lookup ".tsx" = some "typescript" ∧
     EXTENSION_TO_LANGUAGE.lookup ".c" = some "c" ∧
     EXTENSION_TO_LANGUAGE.lookup ".h" = some "c") ∧
    (∀ (env : Env) (ctr : Nat) (fp lang : String),
      detect_language env fp = some lang → (lang = "typescript" ∨ lang = "c") →
      ∀ rest, (generate_compressed_prompt env ctr fp).1 ≠ "# File: " ++ rest) ∧
    (∀ (env : Env) (ctr : Nat) (fp lang ac src : String) (ir : IR),
      detect_language env fp = some lang → (lang = "typescript" ∨ lang = "c") →
      get_analyser lang = some ac →
      env.parserAvailable lang = true →
      env.readBytes fp = .ok src →
      extractDispatch env ac (env.parseTree lang src) = .ok ir →
      (generate_compressed_prompt env ctr fp).1 =
        "# Error: No formatter available for language: " ++ lang) := by
  refine ⟨⟨rfl, rfl⟩, ⟨rfl, rfl⟩, ⟨rfl, rfl, rfl, rfl⟩, ?_, ?_⟩
  · intro env ctr fp lang hdet hlang rest hcontra
    rcases generate_cases env ctr fp with ⟨tail, h⟩ | ⟨lang', fc, content, hdet', hfc, h⟩
    · rw [h] at hcontra
      exact err_ne_file tail rest hcontra
    · rw [hdet] at hdet'
      cases hdet'
      rcases hlang with h | h <;> subst h <;> cases hfc
  · intro env ctr fp lang ac src ir hdet hlang han hpa hr hx
    have hfmt : get_formatter lang = none := by
      rcases hlang with h | h <;> subst h <;> rfl
    unfold generate_compressed_prompt compressBody
    simp only [hdet, han, get_parser_for_language, List.lookup, hpa, if_true, hr, hx, hfmt]

/-- Witness for `C10_theorem` (both quantified parts) at a `.ts` file. -/
theorem C10_witness :
    detect_language envTrivial "x.ts" = some "typescript" ∧
    get_analyser "typescript" = some "JavaScriptAnalyser" ∧
    envTrivial.parserAvailable "typescript" = true ∧
    envTrivial.readBytes "x.ts" = .ok "" ∧
    extractDispatch envTrivial "JavaScriptAnalyser"
      (envTrivial.parseTree "typescript" "") = .ok (IR.other []) ∧
    ((generate_compressed_prompt envTrivial 0 "x.ts").1 ≠ "# File: " ++ "stub") ∧
    (generate_compressed_prompt envTrivial 0 "x.ts").1 =
      "# Error: No formatter available for language: " ++ "typescript" :=
  ⟨rfl, rfl, rfl, rfl, rfl,
   C10_theorem.2.2.2.1 envTrivial 0 "x.ts" "typescript" rfl (Or.inl rfl) "stub",
   C10_theorem.2.2.2.2 envTrivial 0 "x.ts" "typescript" "JavaScriptAnalyser" ""
     (IR.other []) rfl (Or.inl rfl) rfl rfl rfl rfl⟩

/-- Witness for `C7_amended` (the hypothesised conjunct) at a concrete
assignment node outside module scope. -/
theorem C7_witness :
    (TSNode.mk "assignment" "x" []).ty = "assignment" ∧
    ((none : Option String) == some "module") = false ∧
    pyVisit none (TSNode.mk "assignment" "x" []) = .ok ⟨[], [], [], []⟩ :=
  ⟨rfl, rfl, C7_amended.2.1 none (TSNode.mk "assignment" "x" []) rfl rfl⟩

/-- `pyVisit` contributes one import entry exactly on an `import_statement`
or `import_from_statement` node, wherever that node sits. -/
theorem pyVisit_imports (pty : Option String) (n : TSNode) (v : PyStructure)
    (h : pyVisit pty n = .ok v) :
    v.imports.length =
      (if n.ty == "import_statement" || n.ty == "import_from_statement" then 1
       else 0) := by
  unfold pyVisit at h
  by_cases h1 : (n.ty == "import_statement" || n.ty == "import_from_statement") = true
  · rw [if_pos h1] at h
    cases h
    rw [if_pos h1]
    rfl
  · rw [if_neg h1] at h
    rw [if_neg h1]
    by_cases h2 : (n.ty == "class_definition") = true
    · rw [if_pos h2] at h; cases h; rfl
    · rw [if_neg h2] at h
      by_cases h3 : (n.ty == "function_definition") = true
      · rw [if_pos h3] at h; cases h; rfl
      · rw [if_neg h3] at h
        by_cases h4 : (n.ty == "assignment") = true
        · rw [if_pos h4] at h
          by_cases h5 : (pty == some "module") = true
          · rw [if_pos h5] at h
            cases hc : extract_constant_info n with
            | error e => rw [hc] at h; simp [Except.map] at h
            | ok c? =>
              rw [hc] at h
              simp only [Except.map, Except.ok.injEq] at h
              cases c? with
              | none => cases h; rfl
              | some c => cases h; rfl
          · rw [if_neg h5] at h; cases h; rfl
        · rw [if_neg h4] at h; cases h; rfl

mutual
/-- Every `import_statement` / `import_from_statement` node anywhere in the
tree — body-nested ones included — contributes one entry to the flat
`imports` list. -/
theorem pyTraverse_imports : ∀ (pty : Option String) (n : TSNode) (s : PyStructure),
    pyTraverse pty n = .ok s →
    s.imports.length =
      countTy "import_statement" n + countTy "import_from_statement" n
  | pty, .mk t tx cs, s, h => by
    rw [pyTraverse] at h
    cases hv : pyVisit pty (.mk t tx cs) with
    | error e => rw [hv] at h; simp [bind, Except.bind] at h
    | ok here =>
      rw [hv] at h
      cases hl : pyTraverseList (some t) cs with
      | error e => rw [hl] at h; simp [bind, Except.bind] at h
      | ok rest =>
        rw [hl] at h
        simp only [bind, Except.bind, pure, Except.pure, Except.ok.injEq] at h
        subst h
        have hi := pyVisit_imports pty (.mk t tx cs) here hv
        have hi2 := pyTraverseList_imports (some t) cs rest hl
        simp only [TSNode.ty] at hi
        simp only [psAppend, List.length_append, hi, hi2, countTy]
        rcases Bool.eq_false_or_eq_true (t == "import_statement") with h1 | h1
        · have h2 : (t == "import_from_statement") = false :=
            beq_false_of_beq_of_ne h1 (by decide)
          simp [h1, h2]
          try omega
        · rcases Bool.eq_false_or_eq_true (t == "import_from_statement") with h2 | h2 <;>
            (simp [h1, h2]; try omega)
theorem pyTraverseList_imports : ∀ (pty : Option String) (cs : List TSNode) (s : PyStructure),
    pyTraverseList pty cs = .ok s →
    s.imports.length =
      countTyList "import_statement" cs + countTyList "import_from_statement" cs
  | pty, [], s, h => by
    simp only [pyTraverseList, pure, Except.pure, Except.ok.injEq] at h
    subst h
    simp [countTyList]
  | pty, c :: cs, s, h => by
    rw [pyTraverseList] at h
    cases h1 : pyTraverse pty c with
    | error e => rw [h1] at h; simp [bind, Except.bind] at h
    | ok s1 =>
      rw [h1] at h
      cases h2 : pyTraverseList pty cs with
      | error e => rw [h2] at h; simp [bind, Except.bind] at h
      | ok s2 =>
        rw [h2] at h
        simp only [bind, Except.bind, pure, Except.pure, Except.ok.injEq] at h
        subst h
        have ha := pyTraverse_imports pty c s1 h1
        have hb := pyTraverseList_imports pty cs s2 h2
        simp only [psAppend, List.length_append, ha, hb, countTyList]
        omega
end

/-- A Python file whose only import statement sits inside a function body:
`def f():\n    import os`. -/
def cx9Tree : TSNode :=
  .mk "module" "def f():\n    import os"
    [.mk "function_definition" "def f():\n    import os"
       [.mk "def" "def" [],
        .mk "identifier" "f" [],
        .mk "parameters" "()" [],
        .mk ":" ":" [],
        .mk "block" "import os" [.mk "import_statement" "import os" []]]]

/-- An environment whose file system holds the body-import file as Python. -/
def env9 : Env :=
  { envTrivial with
    readBytes := fun _ => .ok "def f():\n    import os"
    parseTree := fun _ _ => cx9Tree }

/-- C9: the claim says the rendered skeleton never contains any executable
statement from a function body.  Counterexample: compressing
`def f():\n    import os` succeeds, and the skeleton's imports section
contains the body's executable statement `import os` verbatim — the
traversal hoists body-nested import nodes into the top-level imports list.
(The `import os` node is not a docstring candidate, so it is an executable
statement of `f`'s body.) -/
theorem C9_counterexample :
    (generate_compressed_prompt env9 0 "b.py").1 =
      "# File: b.py\n# Language: python\n\nimport os\n\ndef f(()):\n" ∧
    containsSub "# File: b.py\n# Language: python\n\nimport os\n\ndef f(()):\n"
      "import os" = true ∧
    isDocStmt (TSNode.mk "import_statement" "import os" []) = false := by
  refine ⟨rfl, by decide, by decide⟩

/-- C9 (amended): the rendered function and method entries themselves are
signatures with optional documentation only — one signature line plus at
most a docstring line — and the extracted function record is unchanged when
every executable statement is deleted from the body; but the skeleton as a
whole may still contain executable statements from function bodies, because
the traversal hoists every `import_statement` / `import_from_statement`
node anywhere in the tree (body-nested ones included) into the rendered
imports section. -/
theorem C9_amended :
    (∀ f : PyFunctionInfo,
      format_function f = pyFnSignature f ∨
      ∃ d, f.docstring = some d ∧ d ≠ "" ∧
        format_function f = pyFnSignature f ++ "\n" ++ "    \x22\x22\x22" ++ d ++ "\x22\x22\x22") ∧
    (∀ m : PyFunctionInfo,
      format_method m = "    " ++ pyFnSignature m ∨
      ∃ d, m.docstring = some d ∧ d ≠ "" ∧
        format_method m = "    " ++ pyFnSignature m ++ "\n" ++
          "        \x22\x22\x22" ++ d ++ "\x22\x22\x22") ∧
    (∀ node : TSNode, extract_function_info (scrubFnBody node) = extract_function_info node) ∧
    (∀ (root : TSNode) (s : PyStructure), extract_structure root = .ok s →
      s.imports.length =
        countTy "import_statement" root + countTy "import_from_statement" root) := by
  refine ⟨?_, ?_, ?_, ?_⟩
  · intro f
    unfold format_function optTruthy
    cases hd : f.docstring with
    | none => exact Or.inl rfl
    | some d =>
      by_cases hne : d ≠ ""
      · right
        refine ⟨d, rfl, hne, ?_⟩
        rw [if_pos (by simpa using hne)]
        simp [String.append_assoc]
      · left
        rw [if_neg (by simpa using hne)]
  · intro m
    unfold format_method optTruthy
    cases hd : m.docstring with
    | none => exact Or.inl rfl
    | some d =>
      by_cases hne : d ≠ ""
      · right
        refine ⟨d, rfl, hne, ?_⟩
        rw [if_pos (by simpa using hne)]
        simp [String.append_assoc]
      · left
        rw [if_neg (by simpa using hne)]
  · intro node
    unfold extract_function_info scrubFnBody
    simp only [TSNode.children]
    rw [List.foldl_map]
    have key : ∀ (l : List TSNode) (acc : PyFunctionInfo),
        l.foldl (fun fi c => pyFnStep fi (scrubChild c)) acc = l.foldl pyFnStep acc := by
      intro l
      induction l with
      | nil => intro acc; rfl
      | cons c rest ih =>
        intro acc
        rw [List.foldl_cons, List.foldl_cons, pyFnStep_scrub, ih]
    exact key _ _
  · intro root s h
    exact pyTraverse_imports none root s h

/-- Witness for `C9_amended` (the hypothesised imports conjunct) at the
body-import file. -/
theorem C9_witness :
    extract_structure cx9Tree =
      .ok ⟨["import os"], [], [⟨"f", "()", none, none, false⟩], []⟩ ∧
    (["import os"] : List String).length =
      countTy "import_statement" cx9Tree + countTy "import_from_statement" cx9Tree :=
  ⟨rfl, C9_amended.2.2.2 cx9Tree ⟨["import os"], [], [⟨"f", "()", none, none, false⟩], []⟩ rfl⟩
